import Mathlib

/-
Shallow embedding of src/responder3/core/logtask.py (class LogProcessor and
the extension machinery around it).

Modelling conventions:
* The six event kinds recognized by LogProcessor.run are the constructors of
  Event; the constructor unknown models any other object arriving on the
  ingress queue (the else branch at line 134-135 of logtask.py).
* File system effects are modelled as lists of written artifacts inside the
  state; the payload serializers (to_json, to_dict, repr, str) are opaque in
  the source repository, so they are modelled as simple injective string
  formatters.
* Exceptions raised by the OS during open/write are modelled by Boolean
  environment flags carried on the events (ioOk / writeOk): the flag says
  whether that event's file operation would succeed.  Likewise the flags on
  HandlerSpec (resolvable, constructOk, coroOk, scheduleOk) model whether
  importlib resolution, the extension constructor (including its init hook),
  create_coro, and loop.create_task succeed for that configured handler.
* A Python function raising is modelled by returning the mutated-so-far state
  together with some error message; catching is modelled at the syntactic
  place of the try/except in the source.
* asyncio queues are modelled as lists (mailbox contents in arrival order).
-/

namespace Responder3

/-- Numeric levels of the python logging module used in logtask.py. -/
def DEBUG : Nat := 10

/-- logging.INFO. -/
def INFO : Nat := 20

/-- logging.ERROR. -/
def ERROR : Nat := 40

/-- The objects flowing on the ingress queue.  The first six constructors are
the kinds recognized by LogProcessor.run; unknown stands for any other object
(its field names the python type, used in the fatal error message).  The ioOk
and writeOk fields are environment flags: whether the file operation this
event triggers (if any) succeeds. -/
inductive Event where
  | logEntry (level : Nat) (source message : String)
  | credential (fingerprint payload : String) (ioOk : Bool)
  | connection (description : String)
  | emailEntry (raw : String) (ioOk : Bool)
  | poisonResult (payload : String) (ioOk : Bool)
  | proxyData (payload : String) (writeOk : Bool)
  | unknown (typeName : String)
deriving DecidableEq

/-- Model of the lazily opened proxy-data artifact file: the lines written so
far and whether close() has been called on the handle. -/
structure ProxyFile where
  entries : List String
  closed : Bool
deriving DecidableEq

/-- One configured handler entry of log_settings.  The name is the key in the
handlers mapping; the Boolean flags are environment flags describing whether
each fallible step of resolution and startup succeeds for this handler. -/
structure HandlerSpec where
  name : String
  resolvable : Bool
  constructOk : Bool
  coroOk : Bool
  scheduleOk : Bool
deriving DecidableEq

/-- The recognized keys of the log_settings dict: logdir (optional, enables
all persistence branches) and handlers (optional mapping, iterated in
insertion order).  The log key is opaque configuration for the logging
backend and is not modelled. -/
structure LogSettings where
  logdir : Option String
  handlers : Option (List HandlerSpec)
deriving DecidableEq

/-- The mutable state of a LogProcessor instance, plus the observable effects
(log records emitted through the logging backend, artifact files written).
extensions_tasks maps taskid to that extension's extension_log_queue content
(its mailbox, in arrival order); scheduled_tasks records the taskids for which
loop.create_task succeeded. -/
structure LPState where
  log_settings : LogSettings
  extensions_tasks : List (Nat × List Event)
  scheduled_tasks : List Nat
  extension_task_id : Nat
  result_history : List (String × Event)
  proxy_file_handler : Option ProxyFile
  proxy_files_created : Nat
  creds_files : List String
  email_files : List String
  poison_files : List String
  logs : List (Nat × String)
deriving DecidableEq

/-- The state of a freshly constructed LogProcessor (its __init__). -/
def initState (settings : LogSettings) : LPState :=
  { log_settings := settings
    extensions_tasks := []
    scheduled_tasks := []
    extension_task_id := 0
    result_history := []
    proxy_file_handler := none
    proxy_files_created := 0
    creds_files := []
    email_files := []
    poison_files := []
    logs := [] }

/-- Model of Credential.to_json (opaque serializer, injective formatter). -/
def credJson (f p : String) : String := "cred " ++ f ++ " " ++ p

/-- Model of str(result.to_dict()) logged for a new credential. -/
def credDictStr (f p : String) : String := "dict " ++ f ++ " " ++ p

/-- Model of poisonresult.to_json. -/
def poisonJson (p : String) : String := "poison " ++ p

/-- Model of repr(poisonresult). -/
def poisonReprStr (p : String) : String := "PoisonResult " ++ p

/-- Model of proxydata.to_json(). -/
def proxyJson (p : String) : String := "proxydata " ++ p

/-- Model of repr(proxydata). -/
def proxyReprStr (p : String) : String := "ProxyData " ++ p

/-- Model of str(log) for a LogEntry. -/
def logEntryStr (source message : String) : String := source ++ " " ++ message

/-- Model of the traceback text produced by log_exception. -/
def tracebackText : String := " traceback"

/-- LogProcessor.handle_log / LogProcessor.log: emit one record through the
logging backend (lines 48-57 and 144-151). -/
def LPState.emitLog (st : LPState) (level : Nat) (msg : String) : LPState :=
  { st with logs := st.logs ++ [(level, msg)] }

/-- LogProcessor.log_exception (lines 231-248): formats the current traceback,
prefixes the optional message and logs the result at ERROR level. -/
def LPState.logException (st : LPState) (message : Option String) : LPState :=
  match message with
  | some m => st.emitLog ERROR (m ++ tracebackText)
  | none => st.emitLog ERROR tracebackText

/-- Dedup part of LogProcessor.handle_credential (lines 174-178): log the new
credential and insert it into result_history on first sight of the
fingerprint, otherwise log the duplicate notice and leave the cache alone. -/
def credentialDedup (st : LPState) (f p : String) (ioOk : Bool) : LPState :=
  if (List.lookup f st.result_history).isSome then
    st.emitLog INFO "Duplicate result found! Filtered."
  else
    let st1 := st.emitLog INFO (credDictStr f p)
    { st1 with result_history := st1.result_history ++ [(f, Event.credential f p ioOk)] }

/-- LogProcessor.handle_credential (lines 162-178).  With logdir configured it
first writes one JSON artifact into the creds subdirectory, unconditionally
(lines 169-172), then runs the dedup branch.  A failing artifact write raises
out of the handler (there is no try/except here): the pair's second component
carries the escaped exception. -/
def handle_credential (st : LPState) (f p : String) (ioOk : Bool) : LPState × Option String :=
  match st.log_settings.logdir with
  | some _ =>
    if ioOk then
      let st1 := { st with creds_files := st.creds_files ++ [credJson f p] }
      (credentialDedup st1 f p ioOk, none)
    else
      (st, some "cred artifact write failed")
  | none => (credentialDedup st f p ioOk, none)

/-- LogProcessor.handle_email (lines 180-192): with logdir configured write the
raw bytes to one file in the emails subdirectory (a failure raises out), then
log the notice. -/
def handle_email (st : LPState) (raw : String) (ioOk : Bool) : LPState × Option String :=
  match st.log_settings.logdir with
  | some _ =>
    if ioOk then
      (({ st with email_files := st.email_files ++ [raw] }).emitLog INFO "You got mail!", none)
    else
      (st, some "email artifact write failed")
  | none => (st.emitLog INFO "You got mail!", none)

/-- LogProcessor.handle_poisonresult (lines 194-205): with logdir configured
write one JSON artifact to the poisondata subdirectory (a failure raises out),
then log repr of the event. -/
def handle_poisonresult (st : LPState) (p : String) (ioOk : Bool) : LPState × Option String :=
  match st.log_settings.logdir with
  | some _ =>
    if ioOk then
      (({ st with poison_files := st.poison_files ++ [poisonJson p] }).emitLog INFO (poisonReprStr p), none)
    else
      (st, some "poison artifact write failed")
  | none => (st.emitLog INFO (poisonReprStr p), none)

/-- LogProcessor.handle_connection (lines 153-160): a synchronous (plain def)
handler that forwards the description at INFO severity.  The run loop at line
127 nevertheless awaits its return value: the call itself completes and emits
the log record, and then the await of its None result raises TypeError; that
escape is modelled at the call site in dispatch. -/
def handle_connection (st : LPState) (d : String) : LPState :=
  st.emitLog INFO d

/-- LogProcessor.handle_proxydata (lines 207-228).  With logdir configured and
no file yet open, it opens the run-lifetime proxydata artifact file.  If a
handle exists, the serialized event plus CRLF is appended; a write failure is
caught inside the handler, but the except branch calls the async
log_exception without awaiting it, so no log record is actually produced, and
the early return skips the debug log.  On success the handler ends by logging
repr of the event at DEBUG. -/
def handle_proxydata (st : LPState) (p : String) (writeOk : Bool) : LPState :=
  let st1 :=
    if st.log_settings.logdir.isSome && st.proxy_file_handler.isNone then
      { st with proxy_file_handler := some ⟨[], false⟩,
                proxy_files_created := st.proxy_files_created + 1 }
    else st
  match st1.proxy_file_handler with
  | some pf =>
    if writeOk then
      ({ st1 with proxy_file_handler := some ⟨pf.entries ++ [proxyJson p ++ "\r\n"], pf.closed⟩ }).emitLog
        DEBUG (proxyReprStr p)
    else
      st1
  | none => st1.emitLog DEBUG (proxyReprStr p)

/-- The kind dispatch of LogProcessor.run (lines 122-135): the isinstance
chain selecting the handler, with the else branch raising the fatal Unknown
object exception.  The second component carries an exception escaping the
dispatch (none of the handlers catches its own artifact-write failure; the
proxydata write failure is caught inside handle_proxydata).  The Connection
branch is line 127, `await self.handle_connection(result)`: handle_connection
is synchronous, so the call runs to completion (emitting its log record) and
returns None, and the await of that None then raises TypeError — every
Connection dispatch therefore raises after the handler's effect. -/
def dispatch (st : LPState) : Event → LPState × Option String
  | .credential f p ioOk => handle_credential st f p ioOk
  | .logEntry lvl src msg => (st.emitLog lvl (logEntryStr src msg), none)
  | .connection d =>
    (handle_connection st d,
      some "TypeError: object NoneType cannot be used in await expression")
  | .emailEntry raw ioOk => handle_email st raw ioOk
  | .poisonResult p ioOk => handle_poisonresult st p ioOk
  | .proxyData p w => (handle_proxydata st p w, none)
  | .unknown tn => (st, some ("Unknown object in queue! Got type: " ++ tn))

/-- Whether dispatching this event raises, as a function of the event and of
whether logdir is configured (the only state the escape condition reads).  A
Connection event always raises: awaiting the None returned by the synchronous
handle_connection is a TypeError (run line 127). -/
def Event.raises (logdirSet : Bool) : Event → Bool
  | .credential _ _ ioOk => logdirSet && !ioOk
  | .emailEntry _ ioOk => logdirSet && !ioOk
  | .poisonResult _ ioOk => logdirSet && !ioOk
  | .connection _ => true
  | .unknown _ => true
  | _ => false

/-- The broadcast loop of LogProcessor.run (lines 120-121): put the dequeued
event onto every registered extension's extension_log_queue. -/
def broadcast (st : LPState) (e : Event) : LPState :=
  { st with extensions_tasks := st.extensions_tasks.map (fun en => (en.1, en.2 ++ [e])) }

/-- LogProcessor.start_extension (lines 59-77).  Allocates the entry with the
current taskid and increments the counter, constructs the extension (its
synchronous init hook runs here), obtains the coroutine, registers the entry
in extensions_tasks, then schedules the task.  The whole sequence is wrapped
in try/except whose handler awaits log_exception.  Note the registry insert
(line 72) precedes create_task (line 73): a scheduling failure is caught and
logged but the entry is already registered. -/
def start_extension (st : LPState) (h : HandlerSpec) : LPState :=
  let taskid := st.extension_task_id
  let st1 := { st with extension_task_id := taskid + 1 }
  if h.constructOk then
    if h.coroOk then
      let st2 := { st1 with extensions_tasks := st1.extensions_tasks ++ [(taskid, [])] }
      if h.scheduleOk then
        { st2 with scheduled_tasks := st2.scheduled_tasks ++ [taskid] }
      else
        st2.logException none
    else
      st1.logException none
  else
    st1.logException none

/-- The combination of LogProcessor.get_handlers (lines 87-99) and the loop in
setup (lines 110-112).  get_handlers is a generator, so resolution and
start_extension interleave per handler, in mapping order.  The literal name
TEST binds the built-in TestExtension without any import; any other name is
resolved by the naming convention through importlib, and a resolution failure
raises out of the for loop uncaught.  (The un-awaited self.log call at line 96
produces no log record and is not modelled.) -/
def setupHandlers : LPState → List HandlerSpec → LPState × Option String
  | st, [] => (st, none)
  | st, h :: rest =>
    if h.name = "TEST" ∨ h.resolvable = true then
      setupHandlers (start_extension st h) rest
    else
      (st, some ("No module named responder3_log_" ++ h.name))

/-- LogProcessor.setup (lines 101-112).  dictConfig and the directory
bootstrap (create_dir_strucutre) have no effect visible to the modelled state;
then, if the handlers key is present, every configured handler is resolved and
started. -/
def setup (st : LPState) : LPState × Option String :=
  match st.log_settings.handlers with
  | none => (st, none)
  | some hs => setupHandlers st hs

/-- The while-True body iterated by LogProcessor.run (lines 118-135): dequeue,
broadcast to every registered mailbox, then kind-dispatch.  The recursion ends
when the modelled trace of arriving events is exhausted (in the real program
the loop would suspend on an empty queue) or when a dispatch raises, returning
the state at escape time, the unconsumed events and the exception. -/
def runLoop : LPState → List Event → LPState × List Event × Option String
  | st, [] => (st, [], none)
  | st, e :: rest =>
    let r := dispatch (broadcast st e) e
    match r.2 with
    | none => runLoop r.1 rest
    | some msg => (r.1, rest, some msg)

/-- The finally block of LogProcessor.run (lines 140-142): close the proxy
file handle if one was opened. -/
def closeProxy (st : LPState) : LPState :=
  match st.proxy_file_handler with
  | some pf => { st with proxy_file_handler := some ⟨pf.entries, true⟩ }
  | none => st

/-- Outcome of LogProcessor.run on a trace of arriving events: the final
state, the events left unconsumed on the ingress queue, and the exception that
terminated the loop, if any. -/
structure RunResult where
  final : LPState
  remaining : List Event
  errored : Option String
deriving DecidableEq

/-- LogProcessor.run (lines 114-142): setup, the setup-done debug log, the
consume loop; any exception escaping them reaches the single top-level except,
which awaits log_exception once with the fixed message; the finally block
closes the proxy handle on every path. -/
def run (st : LPState) (events : List Event) : RunResult :=
  match setup st with
  | (st1, some msg) =>
    { final := closeProxy (st1.logException (some "Logger main task exception"))
      remaining := events
      errored := some msg }
  | (st1, none) =>
    let r := runLoop (st1.emitLog DEBUG "setup done") events
    match r.2.2 with
    | some msg =>
      { final := closeProxy (r.1.logException (some "Logger main task exception"))
        remaining := r.2.1
        errored := some msg }
    | none =>
      { final := closeProxy r.1, remaining := r.2.1, errored := none }

/-- First credential event carrying the given fingerprint in a trace: the
value the dedup cache is specified to retain. -/
def firstCredWith (f : String) : List Event → Option Event
  | [] => none
  | Event.credential f1 p ioOk :: rest =>
    if f1 = f then some (Event.credential f1 p ioOk) else firstCredWith f rest
  | _ :: rest => firstCredWith f rest

/- ------------------------------------------------------------------ -/
/- Helper lemmas shared by the claim theorems. -/

theorem lookup_append_some {k : String} {v : Event} {l l2 : List (String × Event)}
    (h : List.lookup k l = some v) : List.lookup k (l ++ l2) = some v := by
  induction l with
  | nil => simp [List.lookup] at h
  | cons a rest ih =>
    rcases a with ⟨a1, a2⟩
    by_cases hk : k = a1
    · subst hk
      simpa [List.lookup] using h
    · have hne : (k == a1) = false := beq_false_of_ne hk
      simp only [List.cons_append, List.lookup, hne] at h ⊢
      exact ih h

theorem lookup_append_none {k : String} {l l2 : List (String × Event)}
    (h : List.lookup k l = none) : List.lookup k (l ++ l2) = List.lookup k l2 := by
  induction l with
  | nil => simp
  | cons a rest ih =>
    rcases a with ⟨a1, a2⟩
    by_cases hk : k = a1
    · subst hk
      simp [List.lookup] at h
    · have hne : (k == a1) = false := beq_false_of_ne hk
      simp only [List.lookup, hne] at h
      simp only [List.cons_append, List.lookup, hne]
      exact ih h

/-- The kind dispatch never touches the registry, the mailboxes, the settings,
the task-id counter or the scheduled set: those are modified only by setup /
start_extension and by the broadcast loop. -/
theorem dispatch_frame (st : LPState) (e : Event) :
    ((dispatch st e).1).log_settings = st.log_settings ∧
    ((dispatch st e).1).extensions_tasks = st.extensions_tasks ∧
    ((dispatch st e).1).scheduled_tasks = st.scheduled_tasks ∧
    ((dispatch st e).1).extension_task_id = st.extension_task_id := by
  cases e <;>
    simp only [dispatch, handle_credential, handle_email, handle_poisonresult,
      handle_connection, handle_proxydata, credentialDedup, LPState.emitLog] <;>
    (repeat' split) <;> simp

/-- Dispatch raises exactly when Event.raises says so, as a function of the
event and of whether logdir is configured. -/
theorem dispatch_err (st : LPState) (e : Event) :
    ((dispatch st e).2).isSome = e.raises st.log_settings.logdir.isSome := by
  cases e <;>
    simp only [dispatch, Event.raises, handle_credential, handle_email,
      handle_poisonresult, handle_connection, handle_proxydata, credentialDedup,
      LPState.emitLog] <;>
    (repeat' split) <;> simp_all

theorem broadcast_frame (st : LPState) (e : Event) :
    (broadcast st e).log_settings = st.log_settings ∧
    (broadcast st e).result_history = st.result_history ∧
    (broadcast st e).proxy_file_handler = st.proxy_file_handler ∧
    (broadcast st e).proxy_files_created = st.proxy_files_created := by
  simp [broadcast]

/-- Unfolding equation of the loop body: dequeue, broadcast, dispatch. -/
theorem runLoop_cons (st : LPState) (e : Event) (rest : List Event) :
    runLoop st (e :: rest) =
      match (dispatch (broadcast st e) e).2 with
      | none => runLoop (dispatch (broadcast st e) e).1 rest
      | some msg => ((dispatch (broadcast st e) e).1, rest, some msg) := by
  simp only [runLoop]

theorem runLoop_settings (st : LPState) (evs : List Event) :
    (runLoop st evs).1.log_settings = st.log_settings := by
  induction evs generalizing st with
  | nil => rfl
  | cons e rest ih =>
    rw [runLoop_cons]
    cases hd : (dispatch (broadcast st e) e).2 with
    | none =>
      simp only [hd]
      rw [ih, (dispatch_frame _ _).1, (broadcast_frame _ _).1]
    | some msg =>
      simp only [hd]
      rw [(dispatch_frame _ _).1, (broadcast_frame _ _).1]

/-- When every event of the trace dispatches without raising, the loop
consumes the whole trace and ends without an exception. -/
theorem runLoop_ok (st : LPState) (evs : List Event)
    (hok : evs.all (fun e => !(e.raises st.log_settings.logdir.isSome)) = true) :
    (runLoop st evs).2 = ([], none) := by
  induction evs generalizing st with
  | nil => rfl
  | cons e rest ih =>
    rw [List.all_cons, Bool.and_eq_true] at hok
    have he : e.raises st.log_settings.logdir.isSome = false := by
      simpa using hok.1
    cases hd : (dispatch (broadcast st e) e).2 with
    | some msg =>
      exfalso
      have hq := dispatch_err (broadcast st e) e
      rw [hd, (broadcast_frame st e).1, he] at hq
      simp at hq
    | none =>
      rw [runLoop_cons]
      simp only [hd]
      have hset : (dispatch (broadcast st e) e).1.log_settings = st.log_settings := by
        rw [(dispatch_frame _ _).1, (broadcast_frame _ _).1]
      exact ih _ (by rw [hset]; exact hok.2)

/-- The loop appends every consumed event, in dequeue order, to every
registered mailbox, and touches the registry in no other way. -/
theorem runLoop_exts (st : LPState) (evs : List Event) :
    ∃ consumed, evs = consumed ++ (runLoop st evs).2.1 ∧
      (runLoop st evs).1.extensions_tasks =
        st.extensions_tasks.map (fun en => (en.1, en.2 ++ consumed)) := by
  induction evs generalizing st with
  | nil =>
    refine ⟨[], by simp [runLoop], ?_⟩
    simp [runLoop]
  | cons e rest ih =>
    cases hd : (dispatch (broadcast st e) e).2 with
    | some msg =>
      refine ⟨[e], ?_, ?_⟩
      · rw [runLoop_cons]
        simp [hd]
      · rw [runLoop_cons]
        simp only [hd]
        rw [(dispatch_frame _ _).2.1]
        simp [broadcast]
    | none =>
      obtain ⟨c, hc1, hc2⟩ := ih ((dispatch (broadcast st e) e).1)
      refine ⟨e :: c, ?_, ?_⟩
      · rw [runLoop_cons]
        simp only [hd]
        simpa using hc1
      · rw [runLoop_cons]
        simp only [hd]
        rw [hc2, (dispatch_frame _ _).2.1]
        simp [broadcast, List.map_map, Function.comp_def]

/-- Consuming a clean prefix followed by an event whose dispatch raises: the
loop processes the prefix, broadcasts the raising event, attempts its
dispatch, and stops there with the rest of the trace unconsumed. -/
theorem runLoop_raise (st : LPState) (pre suf : List Event) (u : Event)
    (hpre : pre.all (fun e => !(e.raises st.log_settings.logdir.isSome)) = true)
    (hu : u.raises st.log_settings.logdir.isSome = true) :
    runLoop st (pre ++ u :: suf) =
      ((dispatch (broadcast (runLoop st pre).1 u) u).1, suf,
        (dispatch (broadcast (runLoop st pre).1 u) u).2) := by
  induction pre generalizing st with
  | nil =>
    cases hd : (dispatch (broadcast st u) u).2 with
    | none =>
      exfalso
      have hq := dispatch_err (broadcast st u) u
      rw [hd, (broadcast_frame _ _).1, hu] at hq
      simp at hq
    | some msg =>
      show runLoop st (u :: suf) = _
      rw [runLoop_cons]
      simp [runLoop, hd]
  | cons e pre ih =>
    rw [List.all_cons, Bool.and_eq_true] at hpre
    have he : e.raises st.log_settings.logdir.isSome = false := by
      simpa using hpre.1
    cases hd : (dispatch (broadcast st e) e).2 with
    | some m =>
      exfalso
      have hq := dispatch_err (broadcast st e) e
      rw [hd, (broadcast_frame _ _).1, he] at hq
      simp at hq
    | none =>
      have hset : (dispatch (broadcast st e) e).1.log_settings = st.log_settings := by
        rw [(dispatch_frame _ _).1, (broadcast_frame _ _).1]
      have h1 : runLoop st ((e :: pre) ++ u :: suf) =
          runLoop (dispatch (broadcast st e) e).1 (pre ++ u :: suf) := by
        rw [List.cons_append, runLoop_cons]
        simp only [hd]
      have h2 : runLoop st (e :: pre) = runLoop (dispatch (broadcast st e) e).1 pre := by
        rw [runLoop_cons]
        simp only [hd]
      rw [h1, h2]
      exact ih _ (by rw [hset]; exact hpre.2) (by rw [hset]; exact hu)

/-- Effect of one non-raising dispatch on the dedup cache: only a credential
event can change it, and only by appending its fingerprint when unseen. -/
theorem dispatch_hist (st : LPState) (e : Event)
    (he : e.raises st.log_settings.logdir.isSome = false) :
    ((dispatch st e).1).result_history =
      match e with
      | .credential f p ioOk =>
        if (List.lookup f st.result_history).isSome then st.result_history
        else st.result_history ++ [(f, Event.credential f p ioOk)]
      | _ => st.result_history := by
  cases e <;>
    simp only [dispatch, Event.raises, handle_credential, handle_email,
      handle_poisonresult, handle_connection, handle_proxydata, credentialDedup,
      LPState.emitLog] at he ⊢ <;>
    (repeat' split) <;> simp_all

theorem lookup_append_single (f f1 : String) (v : Event) (l : List (String × Event)) :
    List.lookup f (l ++ [(f1, v)]) =
      (List.lookup f l).or (if f = f1 then some v else none) := by
  induction l with
  | nil =>
    by_cases h : f = f1
    · subst h
      simp [List.lookup]
    · simp [List.lookup, beq_false_of_ne h, h]
  | cons a rest ih =>
    rcases a with ⟨a1, a2⟩
    by_cases hk : f = a1
    · subst hk
      simp [List.lookup]
    · simp [List.lookup, beq_false_of_ne hk, ih]

theorem firstCredWith_cons (f : String) (e : Event) (rest : List Event) :
    firstCredWith f (e :: rest) = (firstCredWith f [e]).or (firstCredWith f rest) := by
  cases e <;> simp only [firstCredWith] <;> (repeat' split) <;> simp

/-- Effect of one non-raising dispatch on what the dedup cache answers for a
fingerprint: a cached value survives, an uncached fingerprint picks up the
event when it is a credential carrying it. -/
theorem dispatch_hist_lookup (st : LPState) (e : Event) (f : String)
    (he : e.raises st.log_settings.logdir.isSome = false) :
    List.lookup f ((dispatch st e).1).result_history =
      (List.lookup f st.result_history).or (firstCredWith f [e]) := by
  have hstep := dispatch_hist st e he
  cases e with
  | credential f1 p ioOk =>
    simp only at hstep
    rw [hstep]
    by_cases hlk : (List.lookup f1 st.result_history).isSome
    · rw [if_pos hlk]
      simp only [firstCredWith]
      by_cases hff : f1 = f
      · subst hff
        obtain ⟨v, hv⟩ := Option.isSome_iff_exists.mp hlk
        simp [hv]
      · simp [hff, Option.or_none]
    · rw [if_neg hlk]
      rw [lookup_append_single]
      simp only [firstCredWith]
      by_cases hff : f1 = f
      · subst hff
        simp
      · have hff2 : ¬ f = f1 := fun hc => hff hc.symm
        simp [hff, hff2, Option.or_none]
  | logEntry lvl src msg =>
    simp only at hstep
    rw [hstep]
    simp [firstCredWith, Option.or_none]
  | connection d =>
    simp only at hstep
    rw [hstep]
    simp [firstCredWith, Option.or_none]
  | emailEntry raw ioOk =>
    simp only at hstep
    rw [hstep]
    simp [firstCredWith, Option.or_none]
  | poisonResult p ioOk =>
    simp only at hstep
    rw [hstep]
    simp [firstCredWith, Option.or_none]
  | proxyData p w =>
    simp only at hstep
    rw [hstep]
    simp [firstCredWith, Option.or_none]
  | unknown tn =>
    simp only at hstep
    rw [hstep]
    simp [firstCredWith, Option.or_none]

/-- Lookup in the dedup cache after the loop ran a clean trace: an already
cached fingerprint keeps its value; an uncached one obtains the first
credential of the trace carrying it. -/
theorem runLoop_hist (st : LPState) (evs : List Event) (f : String)
    (hok : evs.all (fun e => !(e.raises st.log_settings.logdir.isSome)) = true) :
    List.lookup f (runLoop st evs).1.result_history =
      (List.lookup f st.result_history).or (firstCredWith f evs) := by
  induction evs generalizing st with
  | nil => simp [runLoop, firstCredWith, Option.or_none]
  | cons e rest ih =>
    rw [List.all_cons, Bool.and_eq_true] at hok
    have he : e.raises st.log_settings.logdir.isSome = false := by
      simpa using hok.1
    cases hd : (dispatch (broadcast st e) e).2 with
    | some msg =>
      exfalso
      have hq := dispatch_err (broadcast st e) e
      rw [hd, (broadcast_frame st e).1, he] at hq
      simp at hq
    | none =>
      rw [runLoop_cons]
      simp only [hd]
      have hset : (dispatch (broadcast st e) e).1.log_settings = st.log_settings := by
        rw [(dispatch_frame _ _).1, (broadcast_frame _ _).1]
      have hbe : e.raises (broadcast st e).log_settings.logdir.isSome = false := by
        rw [(broadcast_frame _ _).1]
        exact he
      rw [ih _ (by rw [hset]; exact hok.2)]
      have hlk := dispatch_hist_lookup (broadcast st e) e f hbe
      rw [(broadcast_frame st e).2.1] at hlk
      rw [hlk, Option.or_assoc, ← firstCredWith_cons]

/-- Full characterization of start_extension.  The taskid is consumed in all
cases; the registry gains the entry exactly when construction and
create_coro succeed (line 72 precedes the create_task call of line 73);
scheduling succeeds only when additionally create_task does; exactly the
failing cases emit the caught-exception ERROR record; nothing else of the
Dispatcher state is touched. -/
theorem start_extension_spec (st : LPState) (h : HandlerSpec) :
    (start_extension st h).extension_task_id = st.extension_task_id + 1 ∧
    (start_extension st h).extensions_tasks =
      (if h.constructOk && h.coroOk then
        st.extensions_tasks ++ [(st.extension_task_id, [])]
       else st.extensions_tasks) ∧
    (start_extension st h).scheduled_tasks =
      (if h.constructOk && h.coroOk && h.scheduleOk then
        st.scheduled_tasks ++ [st.extension_task_id]
       else st.scheduled_tasks) ∧
    (start_extension st h).logs =
      (if h.constructOk && h.coroOk && h.scheduleOk then st.logs
       else st.logs ++ [(ERROR, tracebackText)]) ∧
    (start_extension st h).result_history = st.result_history ∧
    (start_extension st h).log_settings = st.log_settings ∧
    (start_extension st h).proxy_file_handler = st.proxy_file_handler ∧
    (start_extension st h).proxy_files_created = st.proxy_files_created := by
  unfold start_extension LPState.logException LPState.emitLog
  cases hc : h.constructOk <;> cases hk : h.coroOk <;> cases hsch : h.scheduleOk <;> simp

theorem setupHandlers_frame (st : LPState) (hs : List HandlerSpec) :
    (setupHandlers st hs).1.log_settings = st.log_settings ∧
    (setupHandlers st hs).1.result_history = st.result_history ∧
    (setupHandlers st hs).1.proxy_file_handler = st.proxy_file_handler ∧
    (setupHandlers st hs).1.proxy_files_created = st.proxy_files_created := by
  induction hs generalizing st with
  | nil => exact ⟨rfl, rfl, rfl, rfl⟩
  | cons h rest ih =>
    unfold setupHandlers
    split
    · obtain ⟨i1, i2, i3, i4⟩ := ih (start_extension st h)
      obtain ⟨-, -, -, -, s5, s6, s7, s8⟩ := start_extension_spec st h
      exact ⟨i1.trans s6, i2.trans s5, i3.trans s7, i4.trans s8⟩
    · exact ⟨rfl, rfl, rfl, rfl⟩

/-- Extension startup only ever creates fresh empty mailboxes: after setup all
registered mailboxes are empty. -/
theorem setupHandlers_mail (st : LPState) (hs : List HandlerSpec)
    (hmail : ∀ en ∈ st.extensions_tasks, en.2 = ([] : List Event)) :
    ∀ en ∈ (setupHandlers st hs).1.extensions_tasks, en.2 = ([] : List Event) := by
  induction hs generalizing st with
  | nil => exact hmail
  | cons h rest ih =>
    unfold setupHandlers
    split
    · refine ih (start_extension st h) ?_
      intro en hen
      obtain ⟨-, s2, -⟩ := start_extension_spec st h
      rw [s2] at hen
      by_cases hok : (h.constructOk && h.coroOk) = true
      · rw [if_pos hok] at hen
        rcases List.mem_append.mp hen with hl | hr
        · exact hmail en hl
        · simp at hr
          rw [hr]
      · rw [if_neg hok] at hen
        exact hmail en hen
    · exact hmail

/-- A configured handler whose name does not resolve makes setup raise. -/
theorem setupHandlers_err (st : LPState) (hs : List HandlerSpec)
    (hbad : hs.any (fun h => !(h.name == "TEST") && !h.resolvable) = true) :
    (setupHandlers st hs).2.isSome = true := by
  induction hs generalizing st with
  | nil => simp at hbad
  | cons h rest ih =>
    rw [List.any_cons, Bool.or_eq_true] at hbad
    unfold setupHandlers
    split
    · rename_i hg
      refine ih (start_extension st h) ?_
      rcases hbad with hb | hb
      · exfalso
        rw [Bool.and_eq_true] at hb
        rcases hg with hg | hg
        · simp [hg] at hb
        · simp [hg] at hb
      · exact hb
    · simp

/-- When every configured handler resolves, setup raises nothing. -/
theorem setupHandlers_ok (st : LPState) (hs : List HandlerSpec)
    (hgood : hs.all (fun h => h.name == "TEST" || h.resolvable) = true) :
    (setupHandlers st hs).2 = none := by
  induction hs generalizing st with
  | nil => rfl
  | cons h rest ih =>
    rw [List.all_cons, Bool.and_eq_true] at hgood
    unfold setupHandlers
    split
    · exact ih _ hgood.2
    · rename_i hg
      exfalso
      rw [Bool.or_eq_true] at hgood
      rcases hgood.1 with hb | hb
      · exact hg (Or.inl (by simpa using hb)) |>.elim
      · exact hg (Or.inr hb) |>.elim

/-- Kind dispatch preserves the open-once invariant: once the proxy-file
counter is positive a handle is held. -/
theorem dispatch_proxy_inv (st : LPState) (e : Event)
    (hinv : st.proxy_files_created ≠ 0 → st.proxy_file_handler.isSome = true) :
    (dispatch st e).1.proxy_files_created ≠ 0 →
      (dispatch st e).1.proxy_file_handler.isSome = true := by
  cases e <;>
    simp only [dispatch, handle_credential, handle_email, handle_poisonresult,
      handle_connection, handle_proxydata, credentialDedup, LPState.emitLog] <;>
    (repeat' split) <;> simp_all

theorem runLoop_proxy_inv (st : LPState) (evs : List Event)
    (hinv : st.proxy_files_created ≠ 0 → st.proxy_file_handler.isSome = true) :
    (runLoop st evs).1.proxy_files_created ≠ 0 →
      (runLoop st evs).1.proxy_file_handler.isSome = true := by
  induction evs generalizing st with
  | nil => exact hinv
  | cons e rest ih =>
    have hb : (broadcast st e).proxy_files_created ≠ 0 →
        (broadcast st e).proxy_file_handler.isSome = true := by
      rw [(broadcast_frame _ _).2.2.1, (broadcast_frame _ _).2.2.2]
      exact hinv
    cases hd : (dispatch (broadcast st e) e).2 with
    | none =>
      rw [runLoop_cons]
      simp only [hd]
      exact ih _ (dispatch_proxy_inv _ _ hb)
    | some msg =>
      rw [runLoop_cons]
      simp only [hd]
      exact dispatch_proxy_inv _ _ hb

theorem handle_proxydata_some_fields (st : LPState) (es : List String) (p : String)
    (hpf : st.proxy_file_handler = some ⟨es, false⟩) :
    (handle_proxydata st p true).proxy_file_handler =
      some ⟨es ++ [proxyJson p ++ "\r\n"], false⟩ ∧
    (handle_proxydata st p true).proxy_files_created = st.proxy_files_created ∧
    (handle_proxydata st p true).log_settings = st.log_settings := by
  simp [handle_proxydata, hpf, LPState.emitLog]

theorem handle_proxydata_open_fields (st : LPState) (p : String)
    (hld : st.log_settings.logdir.isSome = true) (hpf : st.proxy_file_handler = none) :
    (handle_proxydata st p true).proxy_file_handler =
      some ⟨[proxyJson p ++ "\r\n"], false⟩ ∧
    (handle_proxydata st p true).proxy_files_created = st.proxy_files_created + 1 := by
  simp [handle_proxydata, hld, hpf, LPState.emitLog]

/-- With a handle already open, another ProxyData event never opens a second
file: the counter is unchanged and the same file only grows. -/
theorem handle_proxydata_reuse (st : LPState) (q : String) (w : Bool)
    (hopen : st.proxy_file_handler.isSome = true) :
    (handle_proxydata st q w).proxy_files_created = st.proxy_files_created ∧
    ∃ pf0 pf1, st.proxy_file_handler = some pf0 ∧
      (handle_proxydata st q w).proxy_file_handler = some pf1 ∧
      ∃ tail, pf1.entries = pf0.entries ++ tail ∧ pf1.closed = pf0.closed := by
  obtain ⟨pf0, hpf⟩ := Option.isSome_iff_exists.mp hopen
  cases w with
  | false =>
    refine ⟨?_, pf0, pf0, hpf, ?_, [], by simp, rfl⟩ <;>
      simp [handle_proxydata, hpf]
  | true =>
    refine ⟨?_, pf0, ⟨pf0.entries ++ [proxyJson q ++ "\r\n"], pf0.closed⟩, hpf, ?_,
      [proxyJson q ++ "\r\n"], rfl, rfl⟩ <;>
      simp [handle_proxydata, hpf, LPState.emitLog]

/-- Running the loop on ProxyData events with the file already open: every
entry is appended in order to that same file and no second file is created. -/
theorem runLoop_proxy_some (st : LPState) (ps : List String) (es : List String)
    (hpf : st.proxy_file_handler = some ⟨es, false⟩) :
    (runLoop st (ps.map fun p => Event.proxyData p true)).1.proxy_file_handler =
      some ⟨es ++ ps.map (fun p => proxyJson p ++ "\r\n"), false⟩ ∧
    (runLoop st (ps.map fun p => Event.proxyData p true)).1.proxy_files_created =
      st.proxy_files_created ∧
    (runLoop st (ps.map fun p => Event.proxyData p true)).2 = ([], none) := by
  induction ps generalizing st es with
  | nil => simp [runLoop, hpf]
  | cons p ps ih =>
    have hb : (broadcast st (Event.proxyData p true)).proxy_file_handler =
        some ⟨es, false⟩ := by
      rw [(broadcast_frame _ _).2.2.1, hpf]
    have hdisp : dispatch (broadcast st (Event.proxyData p true)) (Event.proxyData p true) =
        (handle_proxydata (broadcast st (Event.proxyData p true)) p true, none) := rfl
    rw [List.map_cons, runLoop_cons, hdisp]
    simp only []
    obtain ⟨f1, f2, -⟩ := handle_proxydata_some_fields (broadcast st (Event.proxyData p true)) es p hb
    obtain ⟨g1, g2, g3⟩ :=
      ih (handle_proxydata (broadcast st (Event.proxyData p true)) p true)
        (es ++ [proxyJson p ++ "\r\n"]) f1
    refine ⟨?_, ?_, g3⟩
    · rw [g1]
      simp
    · rw [g2, f2, (broadcast_frame _ _).2.2.2]

theorem emitLog_frame (st : LPState) (lvl : Nat) (m : String) :
    (st.emitLog lvl m).extensions_tasks = st.extensions_tasks ∧
    (st.emitLog lvl m).result_history = st.result_history ∧
    (st.emitLog lvl m).proxy_file_handler = st.proxy_file_handler ∧
    (st.emitLog lvl m).proxy_files_created = st.proxy_files_created ∧
    (st.emitLog lvl m).log_settings = st.log_settings := by
  simp [LPState.emitLog]

theorem logException_frame (st : LPState) (m : Option String) :
    (st.logException m).extensions_tasks = st.extensions_tasks ∧
    (st.logException m).result_history = st.result_history ∧
    (st.logException m).proxy_file_handler = st.proxy_file_handler ∧
    (st.logException m).proxy_files_created = st.proxy_files_created := by
  unfold LPState.logException LPState.emitLog
  cases m <;> simp

theorem closeProxy_frame (st : LPState) :
    (closeProxy st).extensions_tasks = st.extensions_tasks ∧
    (closeProxy st).result_history = st.result_history ∧
    (closeProxy st).proxy_files_created = st.proxy_files_created ∧
    (closeProxy st).creds_files = st.creds_files ∧
    (closeProxy st).logs = st.logs := by
  unfold closeProxy
  split <;> simp

/-- The finally block turns a held handle into a closed one and creates
nothing. -/
theorem closeProxy_spec (st : LPState) (hopen : st.proxy_file_handler.isSome = true) :
    ∃ pf, (closeProxy st).proxy_file_handler = some pf ∧ pf.closed = true := by
  obtain ⟨pf, hpf⟩ := Option.isSome_iff_exists.mp hopen
  refine ⟨⟨pf.entries, true⟩, ?_, rfl⟩
  simp [closeProxy, hpf]

theorem setup_frame (st : LPState) :
    (setup st).1.log_settings = st.log_settings ∧
    (setup st).1.result_history = st.result_history ∧
    (setup st).1.proxy_file_handler = st.proxy_file_handler ∧
    (setup st).1.proxy_files_created = st.proxy_files_created := by
  unfold setup
  cases h : st.log_settings.handlers with
  | none => simp
  | some hs => exact setupHandlers_frame st hs

theorem setup_mail (settings : LogSettings) :
    ∀ en ∈ (setup (initState settings)).1.extensions_tasks, en.2 = ([] : List Event) := by
  unfold setup
  cases h : (initState settings).log_settings.handlers with
  | none => simp [initState]
  | some hs =>
    refine setupHandlers_mail _ _ ?_
    intro en hen
    simp [initState] at hen

/-- The three exit shapes of run, as rewriting equations. -/
theorem run_eq_setup_err (st : LPState) (events : List Event) (st1 : LPState) (msg : String)
    (hs : setup st = (st1, some msg)) :
    run st events =
      ⟨closeProxy (st1.logException (some "Logger main task exception")), events, some msg⟩ := by
  unfold run
  rw [hs]

theorem run_eq_loop_err (st : LPState) (events : List Event) (st1 : LPState)
    (hs : setup st = (st1, none)) (st2 : LPState) (rest : List Event) (msg : String)
    (hl : runLoop (st1.emitLog DEBUG "setup done") events = (st2, rest, some msg)) :
    run st events =
      ⟨closeProxy (st2.logException (some "Logger main task exception")), rest, some msg⟩ := by
  unfold run
  rw [hs]
  simp only [hl]

theorem run_eq_ok (st : LPState) (events : List Event) (st1 : LPState)
    (hs : setup st = (st1, none)) (st2 : LPState) (rest : List Event)
    (hl : runLoop (st1.emitLog DEBUG "setup done") events = (st2, rest, none)) :
    run st events = ⟨closeProxy st2, rest, none⟩ := by
  unfold run
  rw [hs]
  simp only [hl]

/-- The dedup cache is append-only: whatever any dispatch does (raising or
not), a cached fingerprint keeps its first-seen value. -/
theorem dispatch_hist_mono (st : LPState) (e : Event) (k : String) (v : Event)
    (hkv : List.lookup k st.result_history = some v) :
    List.lookup k ((dispatch st e).1).result_history = some v := by
  cases e <;>
    simp only [dispatch, handle_credential, handle_email, handle_poisonresult,
      handle_connection, handle_proxydata, credentialDedup, LPState.emitLog] <;>
    (repeat' split) <;>
    first
      | exact hkv
      | exact lookup_append_some hkv

/- ------------------------------------------------------------------ -/
/- Claim theorems. -/

/-- Counterexample to claim C1: with logdir configured, two credential events
with the same fingerprint are processed; the second one does produce the
duplicate-filtered notice, but it also persists a second JSON artifact in the
creds directory (handle_credential writes the file before, and independently
of, the dedup check), so handling the second event does create a new
artifact. -/
theorem C1_counterexample :
    (run (initState ⟨some "logs", none⟩)
      [Event.credential "fp" "pw" true]).final.creds_files.length = 1 ∧
    (run (initState ⟨some "logs", none⟩)
      [Event.credential "fp" "pw" true, Event.credential "fp" "pw" true]).final.creds_files.length = 2 ∧
    ((run (initState ⟨some "logs", none⟩)
      [Event.credential "fp" "pw" true, Event.credential "fp" "pw" true]).final.logs.map
        Prod.snd).contains "Duplicate result found! Filtered." = true := by
  exact ⟨rfl, rfl, rfl⟩

/-- Claim C1 as amended: for any two credential events with equal fingerprint
processed by the Dispatcher with logdir configured, handling the first
produces the new-credential log notice and one persisted JSON artifact in the
credentials subdirectory, and handling the second produces the
duplicate-filtered log notice AND a second persisted artifact: persistence is
unconditional per credential event; deduplication affects only the log notice
and the cache, which retains the first-seen credential. -/
theorem C1_theorem (dir f p1 p2 : String) :
    (run (initState ⟨some dir, none⟩)
      [Event.credential f p1 true, Event.credential f p2 true]).final.creds_files =
        [credJson f p1, credJson f p2] ∧
    (run (initState ⟨some dir, none⟩)
      [Event.credential f p1 true, Event.credential f p2 true]).final.logs =
        [(DEBUG, "setup done"), (INFO, credDictStr f p1),
          (INFO, "Duplicate result found! Filtered.")] ∧
    (run (initState ⟨some dir, none⟩)
      [Event.credential f p1 true, Event.credential f p2 true]).final.result_history =
        [(f, Event.credential f p1 true)] ∧
    (run (initState ⟨some dir, none⟩)
      [Event.credential f p1 true, Event.credential f p2 true]).errored = none := by
  refine ⟨?_, ?_, ?_, ?_⟩ <;>
    simp [run, setup, runLoop, dispatch, broadcast, handle_credential, credentialDedup,
      closeProxy, LPState.emitLog, initState, List.lookup]

/-- C2: for any sequence of well-formed events consumed from the ingress
queue, every extension registered at dequeue time (the registry is fixed once
setup succeeded) receives an identical copy of every consumed event, and the
order of every mailbox equals the dequeue order: the trace splits into the
consumed prefix and the unconsumed remainder, and every registered mailbox
equals exactly the consumed prefix. -/
theorem C2_theorem (settings : LogSettings) (events : List Event)
    (hsetup : (setup (initState settings)).2 = none) :
    ∃ consumed, events = consumed ++ (run (initState settings) events).remaining ∧
      ∀ en ∈ (run (initState settings) events).final.extensions_tasks, en.2 = consumed := by
  rcases hs : setup (initState settings) with ⟨st1, err⟩
  rw [hs] at hsetup
  simp only at hsetup
  subst hsetup
  have hmail : ∀ en ∈ st1.extensions_tasks, en.2 = ([] : List Event) := by
    have hm := setup_mail settings
    rw [hs] at hm
    exact hm
  obtain ⟨consumed, hc1, hc2⟩ := runLoop_exts (st1.emitLog DEBUG "setup done") events
  rcases hlr : runLoop (st1.emitLog DEBUG "setup done") events with ⟨stF, rest, err2⟩
  rw [hlr] at hc1 hc2
  simp only at hc1 hc2
  have hall : ∀ en ∈ stF.extensions_tasks, en.2 = consumed := by
    intro en hen
    rw [hc2] at hen
    obtain ⟨a, ha, rfl⟩ := List.mem_map.mp hen
    have ha2 : a.2 = ([] : List Event) := hmail a ha
    simp [ha2]
  cases err2 with
  | none =>
    rw [run_eq_ok _ _ _ hs _ _ hlr]
    refine ⟨consumed, hc1, ?_⟩
    intro en hen
    rw [(closeProxy_frame stF).1] at hen
    exact hall en hen
  | some msg =>
    rw [run_eq_loop_err _ _ _ hs _ _ _ hlr]
    refine ⟨consumed, hc1, ?_⟩
    intro en hen
    rw [(closeProxy_frame _).1, (logException_frame _ _).1] at hen
    exact hall en hen

/-- Witness for C2 at a concrete input: one TEST extension, two events. -/
theorem C2_witness :
    ((setup (initState ⟨none, some [⟨"TEST", false, true, true, true⟩]⟩)).2 = none) ∧
    (∃ consumed,
      [Event.connection "c", Event.connection "d"] =
        consumed ++ (run (initState ⟨none, some [⟨"TEST", false, true, true, true⟩]⟩)
          [Event.connection "c", Event.connection "d"]).remaining ∧
      ∀ en ∈ (run (initState ⟨none, some [⟨"TEST", false, true, true, true⟩]⟩)
          [Event.connection "c", Event.connection "d"]).final.extensions_tasks,
        en.2 = consumed) :=
  ⟨rfl, C2_theorem ⟨none, some [⟨"TEST", false, true, true, true⟩]⟩
    [Event.connection "c", Event.connection "d"] rfl⟩

/-- C3: if the Dispatcher dequeues an event whose kind is not recognized, or
any handler raises an unhandled error (here: any event whose dispatch
raises), the run loop terminates: the events after the raising one are never
consumed, and the final state is exactly the loop state at escape time passed
through one top-level logException and the finally block that closes the
proxy handle — caught exactly once, logged, no restart, no per-event
isolation. -/
theorem C3_theorem (dir : Option String) (pre suf : List Event) (u : Event)
    (hpre : pre.all (fun e => !(e.raises dir.isSome)) = true)
    (hu : u.raises dir.isSome = true) :
    (run (initState ⟨dir, none⟩) (pre ++ u :: suf)).remaining = suf ∧
    (run (initState ⟨dir, none⟩) (pre ++ u :: suf)).errored.isSome = true ∧
    (run (initState ⟨dir, none⟩) (pre ++ u :: suf)).final =
      closeProxy (((dispatch (broadcast
          (runLoop ((initState ⟨dir, none⟩).emitLog DEBUG "setup done") pre).1 u) u).1).logException
        (some "Logger main task exception")) := by
  have hs : setup (initState ⟨dir, none⟩) = (initState ⟨dir, none⟩, none) := rfl
  have hraise := runLoop_raise ((initState ⟨dir, none⟩).emitLog DEBUG "setup done") pre suf u
    hpre hu
  have hd2 : ((dispatch (broadcast
      (runLoop ((initState ⟨dir, none⟩).emitLog DEBUG "setup done") pre).1 u) u).2).isSome = true := by
    rw [dispatch_err, (broadcast_frame _ _).1, runLoop_settings]
    exact hu
  obtain ⟨msg, hmsg⟩ := Option.isSome_iff_exists.mp hd2
  have hl : runLoop ((initState ⟨dir, none⟩).emitLog DEBUG "setup done") (pre ++ u :: suf) =
      ((dispatch (broadcast
        (runLoop ((initState ⟨dir, none⟩).emitLog DEBUG "setup done") pre).1 u) u).1, suf, some msg) := by
    rw [hraise, hmsg]
  rw [run_eq_loop_err _ _ _ hs _ _ _ hl]
  exact ⟨rfl, rfl, rfl⟩

/-- Witness for C3 at a concrete input: a clean log event, then an
unrecognized object, then one more event that is never consumed. -/
theorem C3_witness :
    (([Event.logEntry 20 "src" "hello"] : List Event).all
      (fun e => !(e.raises (none : Option String).isSome)) = true) ∧
    ((Event.unknown "int").raises (none : Option String).isSome = true) ∧
    ((run (initState ⟨none, none⟩)
        ([Event.logEntry 20 "src" "hello"] ++ Event.unknown "int" :: [Event.connection "d"])).remaining =
      [Event.connection "d"] ∧
     (run (initState ⟨none, none⟩)
        ([Event.logEntry 20 "src" "hello"] ++ Event.unknown "int" :: [Event.connection "d"])).errored.isSome = true ∧
     (run (initState ⟨none, none⟩)
        ([Event.logEntry 20 "src" "hello"] ++ Event.unknown "int" :: [Event.connection "d"])).final =
      closeProxy (((dispatch (broadcast
          (runLoop ((initState ⟨none, none⟩).emitLog DEBUG "setup done")
            [Event.logEntry 20 "src" "hello"]).1
            (Event.unknown "int")) (Event.unknown "int")).1).logException
        (some "Logger main task exception"))) :=
  ⟨by decide, by decide,
    C3_theorem none [Event.logEntry 20 "src" "hello"] [Event.connection "d"] (Event.unknown "int")
      (by decide) (by decide)⟩

/-- C4: if any configured handler name cannot be resolved by the naming
convention, the whole Dispatcher startup fails (setup raises, the loop never
starts) and no event is ever delivered to any extension mailbox: the run
terminates with an error, the whole trace is left unconsumed, and every
mailbox that exists is empty. -/
theorem C4_theorem (dir : Option String) (hs : List HandlerSpec) (events : List Event)
    (hbad : hs.any (fun h => !(h.name == "TEST") && !h.resolvable) = true) :
    (run (initState ⟨dir, some hs⟩) events).errored.isSome = true ∧
    (run (initState ⟨dir, some hs⟩) events).remaining = events ∧
    ∀ en ∈ (run (initState ⟨dir, some hs⟩) events).final.extensions_tasks,
      en.2 = ([] : List Event) := by
  have hserr : (setup (initState ⟨dir, some hs⟩)).2.isSome = true := by
    have hdef : setup (initState ⟨dir, some hs⟩) =
        setupHandlers (initState ⟨dir, some hs⟩) hs := rfl
    rw [hdef]
    exact setupHandlers_err _ _ hbad
  rcases hsq : setup (initState ⟨dir, some hs⟩) with ⟨st1, err⟩
  rw [hsq] at hserr
  simp only at hserr
  obtain ⟨msg, hmsg⟩ := Option.isSome_iff_exists.mp hserr
  subst hmsg
  rw [run_eq_setup_err _ _ _ _ hsq]
  refine ⟨rfl, rfl, ?_⟩
  intro en hen
  rw [(closeProxy_frame _).1, (logException_frame _ _).1] at hen
  have hm := setup_mail ⟨dir, some hs⟩
  rw [hsq] at hm
  exact hm en hen

/-- Witness for C4 at a concrete input: one unresolvable handler. -/
theorem C4_witness :
    (([⟨"bad", false, true, true, true⟩] : List HandlerSpec).any
      (fun h => !(h.name == "TEST") && !h.resolvable) = true) ∧
    ((run (initState ⟨none, some [⟨"bad", false, true, true, true⟩]⟩)
        [Event.connection "x"]).errored.isSome = true ∧
     (run (initState ⟨none, some [⟨"bad", false, true, true, true⟩]⟩)
        [Event.connection "x"]).remaining = [Event.connection "x"] ∧
     ∀ en ∈ (run (initState ⟨none, some [⟨"bad", false, true, true, true⟩]⟩)
        [Event.connection "x"]).final.extensions_tasks, en.2 = ([] : List Event)) :=
  ⟨by decide, C4_theorem none [⟨"bad", false, true, true, true⟩] [Event.connection "x"]
    (by decide)⟩

/-- Counterexample to claim C5: the handler resolves, the extension
constructs and yields its coroutine, but scheduling (loop.create_task)
raises.  The exception is caught and logged, yet the extension is NOT
omitted from the registry: the registry insert of line 72 precedes the
create_task call of line 73, so the entry stays registered (though never
scheduled). -/
theorem C5_counterexample :
    (start_extension (initState ⟨none, none⟩)
      ⟨"foo", true, true, true, false⟩).extensions_tasks = [(0, [])] ∧
    (start_extension (initState ⟨none, none⟩)
      ⟨"foo", true, true, true, false⟩).scheduled_tasks = [] ∧
    (start_extension (initState ⟨none, none⟩)
      ⟨"foo", true, true, true, false⟩).logs = [(ERROR, tracebackText)] :=
  ⟨rfl, rfl, rfl⟩

/-- C5 as amended: for every extension whose name resolves, any exception
during startExtension is caught and logged and leaves the Dispatcher's own
state and every other extension untouched, and startup continues with the
remaining handlers; an exception during construction or coroutine creation
leaves the extension omitted from the registry, but an exception during
scheduling occurs after the registry insert, so the entry remains registered
(and unscheduled).  The taskid is consumed in every case. -/
theorem C5_theorem (st : LPState) (h : HandlerSpec) (rest : List HandlerSpec) :
    (start_extension st h).extension_task_id = st.extension_task_id + 1 ∧
    (start_extension st h).extensions_tasks =
      (if h.constructOk && h.coroOk then st.extensions_tasks ++ [(st.extension_task_id, [])]
       else st.extensions_tasks) ∧
    (start_extension st h).scheduled_tasks =
      (if h.constructOk && h.coroOk && h.scheduleOk then
        st.scheduled_tasks ++ [st.extension_task_id]
       else st.scheduled_tasks) ∧
    (start_extension st h).logs =
      (if h.constructOk && h.coroOk && h.scheduleOk then st.logs
       else st.logs ++ [(ERROR, tracebackText)]) ∧
    (start_extension st h).result_history = st.result_history ∧
    (start_extension st h).log_settings = st.log_settings ∧
    (start_extension st h).proxy_file_handler = st.proxy_file_handler ∧
    setupHandlers st (h :: rest) =
      (if h.name = "TEST" ∨ h.resolvable = true then
        setupHandlers (start_extension st h) rest
       else (st, some ("No module named responder3_log_" ++ h.name))) := by
  obtain ⟨s1, s2, s3, s4, s5, s6, s7, -⟩ := start_extension_spec st h
  exact ⟨s1, s2, s3, s4, s5, s6, s7, rfl⟩

/-- C6: with logdir configured, for any nonempty sequence of ProxyData events
whose writes succeed, exactly one proxy artifact file is created (counter 1):
it is opened lazily on the first event and, once the handle is non-null, it
is never replaced and only grows; after the run it contains exactly the
serialized entries with line terminators, in arrival order. -/
theorem C6_theorem (dir p0 : String) (ps : List String)
    (st2 : LPState) (q : String) (w : Bool)
    (hopen : st2.proxy_file_handler.isSome = true) :
    ((run (initState ⟨some dir, none⟩)
        ((p0 :: ps).map fun p => Event.proxyData p true)).final.proxy_files_created = 1 ∧
     (run (initState ⟨some dir, none⟩)
        ((p0 :: ps).map fun p => Event.proxyData p true)).final.proxy_file_handler =
       some ⟨(p0 :: ps).map (fun p => proxyJson p ++ "\r\n"), true⟩ ∧
     (run (initState ⟨some dir, none⟩)
        ((p0 :: ps).map fun p => Event.proxyData p true)).errored = none ∧
     (run (initState ⟨some dir, none⟩)
        ((p0 :: ps).map fun p => Event.proxyData p true)).remaining = []) ∧
    ((handle_proxydata st2 q w).proxy_files_created = st2.proxy_files_created ∧
     ∃ pf0 pf1, st2.proxy_file_handler = some pf0 ∧
       (handle_proxydata st2 q w).proxy_file_handler = some pf1 ∧
       ∃ tail, pf1.entries = pf0.entries ++ tail ∧ pf1.closed = pf0.closed) := by
  refine ⟨?_, handle_proxydata_reuse st2 q w hopen⟩
  have hs : setup (initState ⟨some dir, none⟩) = (initState ⟨some dir, none⟩, none) := rfl
  have hld : (broadcast ((initState ⟨some dir, none⟩).emitLog DEBUG "setup done")
      (Event.proxyData p0 true)).log_settings.logdir.isSome = true := by
    rw [(broadcast_frame _ _).1]
    rfl
  have hpfB : (broadcast ((initState ⟨some dir, none⟩).emitLog DEBUG "setup done")
      (Event.proxyData p0 true)).proxy_file_handler = none := by
    rw [(broadcast_frame _ _).2.2.1]
    rfl
  obtain ⟨ho1, ho2⟩ := handle_proxydata_open_fields _ p0 hld hpfB
  have hcr : (handle_proxydata (broadcast ((initState ⟨some dir, none⟩).emitLog DEBUG "setup done")
      (Event.proxyData p0 true)) p0 true).proxy_files_created = 1 := by
    rw [ho2, (broadcast_frame _ _).2.2.2]
    rfl
  obtain ⟨g1, g2, g3⟩ := runLoop_proxy_some
    (handle_proxydata (broadcast ((initState ⟨some dir, none⟩).emitLog DEBUG "setup done")
      (Event.proxyData p0 true)) p0 true) ps [proxyJson p0 ++ "\r\n"] ho1
  rcases hlr : runLoop (handle_proxydata (broadcast
      ((initState ⟨some dir, none⟩).emitLog DEBUG "setup done")
      (Event.proxyData p0 true)) p0 true) (ps.map fun p => Event.proxyData p true)
    with ⟨stF, rest, err⟩
  rw [hlr] at g1 g2 g3
  simp only at g1 g2 g3
  have hrest : rest = [] := congrArg Prod.fst g3
  have herr : err = none := congrArg Prod.snd g3
  subst hrest herr
  have hl : runLoop ((initState ⟨some dir, none⟩).emitLog DEBUG "setup done")
      ((p0 :: ps).map fun p => Event.proxyData p true) = (stF, [], none) := by
    rw [List.map_cons, runLoop_cons]
    exact hlr
  rw [run_eq_ok _ _ _ hs _ _ hl]
  refine ⟨?_, ?_, rfl, rfl⟩
  · rw [(closeProxy_frame stF).2.2.1, g2, hcr]
  · have hcp : (closeProxy stF).proxy_file_handler =
        some ⟨[proxyJson p0 ++ "\r\n"] ++ ps.map (fun p => proxyJson p ++ "\r\n"), true⟩ := by
      simp [closeProxy, g1]
    rw [hcp]
    simp

/-- Witness for C6 at a concrete input. -/
theorem C6_witness :
    (({ initState ⟨some "d", none⟩ with
        proxy_file_handler := some ⟨[], false⟩ } : LPState).proxy_file_handler.isSome = true) ∧
    (((run (initState ⟨some "d", none⟩) [Event.proxyData "a" true]).final.proxy_files_created = 1 ∧
      (run (initState ⟨some "d", none⟩) [Event.proxyData "a" true]).final.proxy_file_handler =
        some ⟨[proxyJson "a" ++ "\r\n"], true⟩ ∧
      (run (initState ⟨some "d", none⟩) [Event.proxyData "a" true]).errored = none ∧
      (run (initState ⟨some "d", none⟩) [Event.proxyData "a" true]).remaining = []) ∧
     ((handle_proxydata
        { initState ⟨some "d", none⟩ with proxy_file_handler := some ⟨[], false⟩ }
        "b" true).proxy_files_created =
        ({ initState ⟨some "d", none⟩ with
            proxy_file_handler := some ⟨[], false⟩ } : LPState).proxy_files_created ∧
      ∃ pf0 pf1,
        ({ initState ⟨some "d", none⟩ with
            proxy_file_handler := some ⟨[], false⟩ } : LPState).proxy_file_handler = some pf0 ∧
        (handle_proxydata
          { initState ⟨some "d", none⟩ with proxy_file_handler := some ⟨[], false⟩ }
          "b" true).proxy_file_handler = some pf1 ∧
        ∃ tail, pf1.entries = pf0.entries ++ tail ∧ pf1.closed = pf0.closed)) :=
  ⟨rfl, C6_theorem "d" "a" []
    { initState ⟨some "d", none⟩ with proxy_file_handler := some ⟨[], false⟩ } "b" true rfl⟩

/-- C7: evaluation of handle_proxydata at a failing write.  With logdir
configured, three ProxyData events arrive and the write of the second one
raises.  As the claim says, the error is caught inside handle_proxydata, only
that single event is dropped and the loop keeps consuming (no error escapes,
nothing remains unconsumed, the file holds exactly the first and third
entries).  Contrary to the claim, however, NO error is ever logged: the
except branch calls the async log_exception without awaiting it, so the final
log stream contains no ERROR record at all. -/
theorem C7_theorem :
    (run (initState ⟨some "logs", none⟩)
      [Event.proxyData "a" true, Event.proxyData "b" false,
        Event.proxyData "c" true]).errored = none ∧
    (run (initState ⟨some "logs", none⟩)
      [Event.proxyData "a" true, Event.proxyData "b" false,
        Event.proxyData "c" true]).remaining = [] ∧
    (run (initState ⟨some "logs", none⟩)
      [Event.proxyData "a" true, Event.proxyData "b" false,
        Event.proxyData "c" true]).final.proxy_file_handler =
      some ⟨[proxyJson "a" ++ "\r\n", proxyJson "c" ++ "\r\n"], true⟩ ∧
    ((run (initState ⟨some "logs", none⟩)
      [Event.proxyData "a" true, Event.proxyData "b" false,
        Event.proxyData "c" true]).final.logs.filter (fun l => l.1 == ERROR)).length = 0 :=
  ⟨rfl, rfl, rfl, rfl⟩

/-- C8: after any clean run, the dedup cache answers, for every fingerprint,
exactly the first credential event of the trace carrying it (first conjunct:
nothing is overwritten and insertion order fixes the winner); and at every
single dispatch step, on any state, a cached entry survives unchanged (second
conjunct: nothing is ever removed). -/
theorem C8_theorem (dir : Option String) (events : List Event) (f : String)
    (st : LPState) (e : Event) (k : String) (v : Event)
    (hok : events.all (fun ev => !(ev.raises dir.isSome)) = true)
    (hkv : List.lookup k st.result_history = some v) :
    List.lookup f (run (initState ⟨dir, none⟩) events).final.result_history =
      firstCredWith f events ∧
    List.lookup k ((dispatch st e).1).result_history = some v := by
  refine ⟨?_, dispatch_hist_mono st e k v hkv⟩
  have hs : setup (initState ⟨dir, none⟩) = (initState ⟨dir, none⟩, none) := rfl
  have hok2 : events.all (fun ev => !(ev.raises
      ((initState ⟨dir, none⟩).emitLog DEBUG "setup done").log_settings.logdir.isSome)) = true := hok
  have hl2 := runLoop_ok ((initState ⟨dir, none⟩).emitLog DEBUG "setup done") events hok2
  have hh := runLoop_hist ((initState ⟨dir, none⟩).emitLog DEBUG "setup done") events f hok2
  rcases hlr : runLoop ((initState ⟨dir, none⟩).emitLog DEBUG "setup done") events
    with ⟨stF, rest, err⟩
  rw [hlr] at hl2 hh
  simp only at hl2 hh
  have hrest : rest = [] := congrArg Prod.fst hl2
  have herr : err = none := congrArg Prod.snd hl2
  subst hrest herr
  rw [run_eq_ok _ _ _ hs _ _ hlr]
  show List.lookup f (closeProxy stF).result_history = firstCredWith f events
  rw [(closeProxy_frame stF).2.1, hh]
  exact Option.none_or

/-- Witness for C8 at a concrete input: two credentials sharing a
fingerprint and one distinct, plus a pre-populated cache entry surviving an
unrelated dispatch. -/
theorem C8_witness :
    (([Event.credential "a" "p1" true, Event.credential "a" "p2" true,
        Event.credential "b" "q" true] : List Event).all
      (fun ev => !(ev.raises (none : Option String).isSome)) = true) ∧
    (List.lookup "k"
      ({ initState ⟨none, none⟩ with
          result_history := [("k", Event.connection "x")] } : LPState).result_history =
      some (Event.connection "x")) ∧
    (List.lookup "a" (run (initState ⟨none, none⟩)
        [Event.credential "a" "p1" true, Event.credential "a" "p2" true,
          Event.credential "b" "q" true]).final.result_history =
      firstCredWith "a"
        [Event.credential "a" "p1" true, Event.credential "a" "p2" true,
          Event.credential "b" "q" true] ∧
     List.lookup "k" ((dispatch
        { initState ⟨none, none⟩ with result_history := [("k", Event.connection "x")] }
        (Event.credential "k2" "z" true)).1).result_history = some (Event.connection "x")) :=
  ⟨by decide, rfl,
    C8_theorem none
      [Event.credential "a" "p1" true, Event.credential "a" "p2" true,
        Event.credential "b" "q" true] "a"
      { initState ⟨none, none⟩ with result_history := [("k", Event.connection "x")] }
      (Event.credential "k2" "z" true) "k" (Event.connection "x") (by decide) rfl⟩

/-- C9: on every exit path of run — setup failure, fatal loop error, or end
of the trace — the proxy-data handle, if one was ever opened (the creation
counter is positive), has been closed by the finally block. -/
theorem C9_theorem (settings : LogSettings) (events : List Event)
    (hopen : (run (initState settings) events).final.proxy_files_created ≠ 0) :
    ∃ pf, (run (initState settings) events).final.proxy_file_handler = some pf ∧
      pf.closed = true := by
  rcases hsq : setup (initState settings) with ⟨st1, err⟩
  have hfr := setup_frame (initState settings)
  rw [hsq] at hfr
  simp only at hfr
  have hcr1 : st1.proxy_files_created = 0 := by
    rw [hfr.2.2.2]
    rfl
  cases err with
  | some msg =>
    rw [run_eq_setup_err _ _ _ _ hsq] at hopen
    exfalso
    apply hopen
    show (closeProxy (st1.logException (some "Logger main task exception"))).proxy_files_created = 0
    rw [(closeProxy_frame _).2.2.1, (logException_frame _ _).2.2.2, hcr1]
  | none =>
    have hinv2 : (st1.emitLog DEBUG "setup done").proxy_files_created ≠ 0 →
        (st1.emitLog DEBUG "setup done").proxy_file_handler.isSome = true := by
      intro hc
      exact ((hc hcr1).elim : _)
    have hinvF := runLoop_proxy_inv (st1.emitLog DEBUG "setup done") events hinv2
    rcases hlr : runLoop (st1.emitLog DEBUG "setup done") events with ⟨stF, rest, err2⟩
    rw [hlr] at hinvF
    simp only at hinvF
    cases err2 with
    | none =>
      rw [run_eq_ok _ _ _ hsq _ _ hlr] at hopen ⊢
      have hcF : stF.proxy_files_created ≠ 0 := by
        intro hc
        apply hopen
        show (closeProxy stF).proxy_files_created = 0
        rw [(closeProxy_frame stF).2.2.1, hc]
      exact closeProxy_spec stF (hinvF hcF)
    | some msg =>
      rw [run_eq_loop_err _ _ _ hsq _ _ _ hlr] at hopen ⊢
      have hcF : stF.proxy_files_created ≠ 0 := by
        intro hc
        apply hopen
        show (closeProxy (stF.logException (some "Logger main task exception"))).proxy_files_created = 0
        rw [(closeProxy_frame _).2.2.1, (logException_frame _ _).2.2.2, hc]
      have hsome : (stF.logException
          (some "Logger main task exception")).proxy_file_handler.isSome = true := by
        rw [(logException_frame _ _).2.2.1]
        exact hinvF hcF
      exact closeProxy_spec _ hsome

/-- Witness for C9 at a concrete input: one successful ProxyData event opens
the file; after run it is closed. -/
theorem C9_witness :
    ((run (initState ⟨some "d", none⟩) [Event.proxyData "x" true]).final.proxy_files_created ≠ 0) ∧
    (∃ pf, (run (initState ⟨some "d", none⟩)
        [Event.proxyData "x" true]).final.proxy_file_handler = some pf ∧ pf.closed = true) :=
  ⟨by decide, C9_theorem ⟨some "d", none⟩ [Event.proxyData "x" true] (by decide)⟩

/-- C10: for every dequeued event the broadcast to all registered mailboxes
happens before any kind-specific handling; in particular, when an
unrecognized event fatally terminates the loop, that event has already been
placed into every registered extension's mailbox, right after the cleanly
consumed prefix. -/
theorem C10_theorem (dir : Option String) (hs : List HandlerSpec)
    (pre suf : List Event) (t : String)
    (hgood : hs.all (fun h => h.name == "TEST" || h.resolvable) = true)
    (hpre : pre.all (fun e => !(e.raises dir.isSome)) = true) :
    (run (initState ⟨dir, some hs⟩) (pre ++ Event.unknown t :: suf)).errored.isSome = true ∧
    ∀ en ∈ (run (initState ⟨dir, some hs⟩)
        (pre ++ Event.unknown t :: suf)).final.extensions_tasks,
      en.2 = pre ++ [Event.unknown t] := by
  have hsv : (setup (initState ⟨dir, some hs⟩)).2 = none := by
    have hdef : setup (initState ⟨dir, some hs⟩) =
        setupHandlers (initState ⟨dir, some hs⟩) hs := rfl
    rw [hdef]
    exact setupHandlers_ok _ _ hgood
  rcases hsq : setup (initState ⟨dir, some hs⟩) with ⟨st1, err⟩
  rw [hsq] at hsv
  simp only at hsv
  subst hsv
  have hset1 : st1.log_settings = (⟨dir, some hs⟩ : LogSettings) := by
    have hfr := setup_frame (initState ⟨dir, some hs⟩)
    rw [hsq] at hfr
    exact hfr.1
  have hsl : (st1.emitLog DEBUG "setup done").log_settings.logdir.isSome = dir.isSome := by
    show st1.log_settings.logdir.isSome = dir.isSome
    rw [hset1]
  have hpre2 : pre.all (fun e =>
      !(e.raises (st1.emitLog DEBUG "setup done").log_settings.logdir.isSome)) = true := by
    simp only [hsl]
    exact hpre
  have hu2 : (Event.unknown t).raises
      (st1.emitLog DEBUG "setup done").log_settings.logdir.isSome = true := rfl
  have hraise := runLoop_raise (st1.emitLog DEBUG "setup done") pre suf (Event.unknown t)
    hpre2 hu2
  have hl : runLoop (st1.emitLog DEBUG "setup done") (pre ++ Event.unknown t :: suf) =
      (broadcast (runLoop (st1.emitLog DEBUG "setup done") pre).1 (Event.unknown t), suf,
        some ("Unknown object in queue! Got type: " ++ t)) := by
    rw [hraise]
    rfl
  rw [run_eq_loop_err _ _ _ hsq _ _ _ hl]
  refine ⟨rfl, ?_⟩
  obtain ⟨consumed, hc1, hc2⟩ := runLoop_exts (st1.emitLog DEBUG "setup done") pre
  have hok := runLoop_ok (st1.emitLog DEBUG "setup done") pre hpre2
  have hrem : (runLoop (st1.emitLog DEBUG "setup done") pre).2.1 = [] :=
    congrArg Prod.fst hok
  rw [hrem, List.append_nil] at hc1
  subst hc1
  have hm : ∀ en ∈ st1.extensions_tasks, en.2 = ([] : List Event) := by
    have hmm := setup_mail ⟨dir, some hs⟩
    rw [hsq] at hmm
    exact hmm
  intro en hen
  rw [(closeProxy_frame _).1, (logException_frame _ _).1] at hen
  simp only [broadcast] at hen
  obtain ⟨b, hb, rfl⟩ := List.mem_map.mp hen
  rw [hc2] at hb
  obtain ⟨a, ha, rfl⟩ := List.mem_map.mp hb
  have ha2 : a.2 = ([] : List Event) := hm a ha
  simp [ha2]

/-- Witness for C10 at a concrete input: one TEST extension, a clean log
event, then an unrecognized object. -/
theorem C10_witness :
    (([⟨"TEST", false, true, true, true⟩] : List HandlerSpec).all
      (fun h => h.name == "TEST" || h.resolvable) = true) ∧
    (([Event.logEntry 20 "src" "hello"] : List Event).all
      (fun e => !(e.raises (none : Option String).isSome)) = true) ∧
    ((run (initState ⟨none, some [⟨"TEST", false, true, true, true⟩]⟩)
        ([Event.logEntry 20 "src" "hello"] ++ Event.unknown "int" :: [])).errored.isSome = true ∧
     ∀ en ∈ (run (initState ⟨none, some [⟨"TEST", false, true, true, true⟩]⟩)
        ([Event.logEntry 20 "src" "hello"] ++ Event.unknown "int" :: [])).final.extensions_tasks,
       en.2 = [Event.logEntry 20 "src" "hello"] ++ [Event.unknown "int"]) :=
  ⟨by decide, by decide,
    C10_theorem none [⟨"TEST", false, true, true, true⟩] [Event.logEntry 20 "src" "hello"] [] "int"
      (by decide) (by decide)⟩

end Responder3
